import Mathlib

/-!
A shallow embedding of the lexical scanner in `src/lexer.c`.

The C scanner works over a NUL-terminated character buffer through a moving
pointer.  We model the buffer as a `List Char` (the bytes before the
terminating NUL) and the pointer as a `Nat` index; reading at or past the end
of the list yields the NUL character, exactly as dereferencing the terminator
does in C.  Every loop of the C code is translated to a structurally recursive
function over the remaining suffix of the buffer, so all definitions compute
by kernel reduction.

Line references are to `src/lexer.c`.
-/

/-- The NUL character, `'\0'` in C. -/
def nulChar : Char := Char.ofNat 0

/-- TokenType enum (lexer.c lines 11-25). -/
inductive TokenType where
  | TOKEN_INT
  | TOKEN_VOID
  | TOKEN_RETURN
  | TOKEN_IDENTIFIER
  | TOKEN_CONSTANT
  | TOKEN_OPEN_PAREN
  | TOKEN_CLOSE_PAREN
  | TOKEN_OPEN_BRACE
  | TOKEN_CLOSE_BRACE
  | TOKEN_SEMICOLON
  | TOKEN_EOF
  | TOKEN_ERROR
  deriving DecidableEq

/-- Token structure (lexer.c lines 28-32).  The C `lexeme` field is a
`char *`; the EOF token carries a NULL pointer, which we model as `[]`. -/
structure Token where
  type : TokenType
  lexeme : List Char
  deriving DecidableEq

/-- `isspace` of the C locale on unsigned chars: space, tab, newline,
vertical tab, form feed, carriage return. -/
def c_isspace (c : Char) : Bool :=
  c = ' ' || c = '\t' || c = '\n' || c = Char.ofNat 11 || c = Char.ofNat 12 || c = '\r'

/-- `isdigit` of the C locale. -/
def c_isdigit (c : Char) : Bool :=
  '0' ≤ c && c ≤ '9'

/-- `isalpha` of the C locale. -/
def c_isalpha (c : Char) : Bool :=
  ('a' ≤ c && c ≤ 'z') || ('A' ≤ c && c ≤ 'Z')

/-- `isalnum` of the C locale. -/
def c_isalnum (c : Char) : Bool :=
  c_isalpha c || c_isdigit c

/-- Reading the buffer at an index: positions at or past the end read the
terminating NUL. -/
def charAt (buf : List Char) (pos : Nat) : Char :=
  match buf, pos with
  | [], _ => nulChar
  | c :: _, 0 => c
  | _ :: cs, n + 1 => charAt cs n

/-- Number of leading characters of a suffix consumed by the loop
`while (*input != '\0' && isspace(*input)) input++;` (lexer.c lines 81-82). -/
def ws_run : List Char → Nat
  | [] => 0
  | c :: cs => if c ≠ nulChar && c_isspace c then ws_run cs + 1 else 0

/-- `skip_whitespace` (lexer.c lines 79-84) as a function on cursor indices. -/
def skip_whitespace (buf : List Char) (pos : Nat) : Nat :=
  pos + ws_run (buf.drop pos)

/-- Length of the identifier run scanned by the loop
`while (isalnum(*p) || *p == '_') { p++; len++; }` (lexer.c lines 177-181). -/
def ident_run : List Char → Nat
  | [] => 0
  | c :: cs => if c_isalnum c || c = '_' then ident_run cs + 1 else 0

/-- Identifier-run length starting at a cursor index. -/
def ident_len (buf : List Char) (pos : Nat) : Nat :=
  ident_run (buf.drop pos)

/-- Length of the digit run scanned by the loop at lexer.c lines 195-205. -/
def digit_run : List Char → Nat
  | [] => 0
  | c :: cs => if c_isdigit c then digit_run cs + 1 else 0

/-- Digit-run length starting at a cursor index. -/
def digit_len (buf : List Char) (pos : Nat) : Nat :=
  digit_run (buf.drop pos)

/-- The switch over `( ) \x7b \x7d ;` (lexer.c lines 152-160): the token type
the `simple_token` ends up with; it stays `TOKEN_ERROR` for any other
character. -/
def punct_type (c : Char) : TokenType :=
  if c = '(' then .TOKEN_OPEN_PAREN
  else if c = ')' then .TOKEN_CLOSE_PAREN
  else if c = '\x7b' then .TOKEN_OPEN_BRACE
  else if c = '\x7d' then .TOKEN_CLOSE_BRACE
  else if c = ';' then .TOKEN_SEMICOLON
  else .TOKEN_ERROR

/-- The check `simple_token.type != TOKEN_ERROR` (lexer.c line 162), i.e.
whether the character is one of the five single-character punctuators. -/
def is_punct (c : Char) : Bool :=
  c = '(' || c = ')' || c = '\x7b' || c = '\x7d' || c = ';'

/-- Length of the malformed run scanned by the loop at lexer.c lines 216-221:
`while (*input != '\0' && !isspace(*input) && *input != '(' ... )`. -/
def malformed_run : List Char → Nat
  | [] => 0
  | c :: cs => if c ≠ nulChar && !c_isspace c && !is_punct c then malformed_run cs + 1 else 0

/-- Malformed-run length starting at a cursor index. -/
def malformed_len (buf : List Char) (pos : Nat) : Nat :=
  malformed_run (buf.drop pos)

/-- `strndup(buf + pos, n)`: copies at most `n` characters, stopping at the
terminating NUL. -/
def strndup (buf : List Char) : Nat → Nat → List Char
  | _, 0 => []
  | pos, n + 1 =>
    if charAt buf pos = nulChar then [] else charAt buf pos :: strndup buf (pos + 1) n

/-- `check_keyword` (lexer.c lines 123-129). -/
def check_keyword (lexeme : List Char) : TokenType :=
  if lexeme = "int".toList then .TOKEN_INT
  else if lexeme = "void".toList then .TOKEN_VOID
  else if lexeme = "return".toList then .TOKEN_RETURN
  else .TOKEN_IDENTIFIER

/-- The residue of the C variable `len` when control reaches the
malformed-run loop (lexer.c line 216): the digit branch (lines 195-214)
leaves `len` equal to the digit-run length when the run is immediately
followed by a letter, digit or underscore, and that value is NOT reset
before the loop at line 216 adds to it. -/
def stale_len (buf : List Char) (pos : Nat) : Nat :=
  if c_isdigit (charAt buf pos) then digit_len buf pos else 0

/-- The count `len > 0 ? len : 1` used for the error token (lexer.c
lines 223-225), with `len` equal to the stale digit-branch residue plus the
malformed-run length. -/
def malf_n (buf : List Char) (pos : Nat) : Nat :=
  if stale_len buf pos + malformed_len buf pos > 0
  then stale_len buf pos + malformed_len buf pos
  else 1

/-- The body of `get_next_token` after the whitespace skip (lexer.c
lines 140-226), with `pos` the already-skipped cursor (`input` in the C).
Returns the token and the updated cursor.

Note the comment at line 138 says "Skip whitespace and comments", but only
`skip_whitespace` is invoked (line 139); `skip_comments` (lines 91-116) is
never called, so this function sees comment characters as ordinary input. -/
def scan_at (buf : List Char) (pos : Nat) : Token × Nat :=
  if charAt buf pos = nulChar then
    (⟨.TOKEN_EOF, []⟩, pos)
  else if is_punct (charAt buf pos) then
    (⟨punct_type (charAt buf pos), strndup buf pos 1⟩, pos + 1)
  else if (c_isalpha (charAt buf pos) || charAt buf pos = '_') &&
          !(c_isalnum (charAt buf (pos + ident_len buf pos)) ||
            charAt buf (pos + ident_len buf pos) = '_') then
    (⟨check_keyword (strndup buf pos (ident_len buf pos)),
      strndup buf pos (ident_len buf pos)⟩, pos + ident_len buf pos)
  else if c_isdigit (charAt buf pos) &&
          !(c_isalnum (charAt buf (pos + digit_len buf pos)) ||
            charAt buf (pos + digit_len buf pos) = '_') then
    (⟨.TOKEN_CONSTANT, strndup buf pos (digit_len buf pos)⟩, pos + digit_len buf pos)
  else
    (⟨.TOKEN_ERROR, strndup buf pos (malf_n buf pos)⟩, pos + malf_n buf pos)

/-- `get_next_token` (lexer.c lines 136-227): skip whitespace (line 139),
then classify at the resulting cursor. -/
def get_next_token (buf : List Char) (pos : Nat) : Token × Nat :=
  scan_at buf (skip_whitespace buf pos)

/-- The do-while loop of `main` (lexer.c lines 293-316), collecting the
tokens it sees, with explicit fuel.  `tokenize_all` below supplies fuel
sufficient for every buffer (proved in `tokenize_fuel_eof_suffix`). -/
def tokenize_fuel (buf : List Char) : Nat → Nat → List Token
  | 0, _ => []
  | fuel + 1, pos =>
    if (get_next_token buf pos).1.type = .TOKEN_EOF then
      [(get_next_token buf pos).1]
    else
      (get_next_token buf pos).1 :: tokenize_fuel buf fuel (get_next_token buf pos).2

/-- The full token sequence produced by scanning the buffer from the start. -/
def tokenize_all (buf : List Char) : List Token :=
  tokenize_fuel buf (buf.length + 1) 0

/-- The `error_count` accumulation of main's do-while loop (lexer.c
lines 308-311): each `TOKEN_ERROR` token increments the count by one. -/
def drive_count (buf : List Char) : Nat → Nat → Nat
  | 0, _ => 0
  | fuel + 1, pos =>
    (if (get_next_token buf pos).1.type = .TOKEN_ERROR then 1 else 0) +
    (if (get_next_token buf pos).1.type = .TOKEN_EOF then 0
     else drive_count buf fuel (get_next_token buf pos).2)

/-- The value of `error_count` after a full scan. -/
def error_count (buf : List Char) : Nat :=
  drive_count buf (buf.length + 1) 0

/-- The exit status computed by main after a successful load (lexer.c
lines 318-326): 1 when `error_count > 0`, else 0. -/
def lexer_main_status (buf : List Char) : Nat :=
  if error_count buf > 0 then 1 else 0

/-- Length of the run scanned by the single-line-comment loop
`while (*input != '\0' && *input != '\n') input++;` (lexer.c lines 98-99). -/
def line_comment_run : List Char → Nat
  | [] => 0
  | c :: cs => if c ≠ nulChar && c ≠ '\n' then line_comment_run cs + 1 else 0

/-- Length of the run scanned by the block-comment body loop
`while (*input != '\0' && !(input[0] == '*' && input[1] == '/')) input++;`
(lexer.c line 105). -/
def block_body_run : List Char → Nat
  | [] => 0
  | c :: cs =>
    if c ≠ nulChar && !(c = '*' && charAt cs 0 = '/') then block_body_run cs + 1 else 0

/-- Reading at or past the end of the buffer yields the terminating NUL. -/
theorem charAt_eq_nul_of_le (buf : List Char) : ∀ pos, buf.length ≤ pos → charAt buf pos = nulChar := by
  induction buf with
  | nil => intro pos _; rfl
  | cons c cs ih =>
    intro pos h
    cases pos with
    | zero => simp at h
    | succ n => exact ih n (by simpa using h)

/-- A position holding a non-NUL character lies inside the buffer. -/
theorem lt_length_of_charAt_ne_nul {buf : List Char} {pos : Nat}
    (h : charAt buf pos ≠ nulChar) : pos < buf.length := by
  by_contra hc
  push_neg at hc
  exact h (charAt_eq_nul_of_le buf pos hc)

/-- The suffix at a position is empty or starts with the character there. -/
theorem charAt_cons_drop (buf : List Char) :
    ∀ pos, buf.drop pos = [] ∨ buf.drop pos = charAt buf pos :: buf.drop (pos + 1) := by
  induction buf with
  | nil => intro pos; left; simp
  | cons c cs ih =>
    intro pos
    cases pos with
    | zero => right; rfl
    | succ n => exact ih n

/-- At a position holding a non-NUL character the suffix is nonempty. -/
theorem drop_cons_of_charAt_ne_nul {buf : List Char} {pos : Nat}
    (h : charAt buf pos ≠ nulChar) :
    buf.drop pos = charAt buf pos :: buf.drop (pos + 1) := by
  rcases charAt_cons_drop buf pos with hd | hd
  · exfalso
    apply h
    apply charAt_eq_nul_of_le
    have hl := List.length_drop pos buf
    rw [hd] at hl
    simp only [List.length_nil] at hl
    omega
  · exact hd

/-- The whitespace loop does not move off a NUL character. -/
theorem ws_run_drop_of_nul {buf : List Char} {pos : Nat} (h : charAt buf pos = nulChar) :
    ws_run (buf.drop pos) = 0 := by
  rcases charAt_cons_drop buf pos with hd | hd
  · rw [hd]; rfl
  · rw [hd, h]
    simp [ws_run]

/-- `skip_whitespace` never rewinds the cursor. -/
theorem skip_whitespace_le (buf : List Char) (pos : Nat) : pos ≤ skip_whitespace buf pos :=
  Nat.le_add_right _ _

/-- `skip_whitespace` is the identity at a NUL character. -/
theorem skip_whitespace_of_nul {buf : List Char} {pos : Nat} (h : charAt buf pos = nulChar) :
    skip_whitespace buf pos = pos := by
  unfold skip_whitespace
  rw [ws_run_drop_of_nul h]
  omega

/-- Letters are alphanumeric. -/
theorem c_isalnum_of_alpha {c : Char} (h : c_isalpha c = true) : c_isalnum c = true := by
  unfold c_isalnum
  rw [h]
  rfl

/-- An identifier run starting on a letter, digit or underscore is nonempty. -/
theorem ident_len_pos {buf : List Char} {pos : Nat}
    (h : c_isalnum (charAt buf pos) = true ∨ charAt buf pos = '_') :
    1 ≤ ident_len buf pos := by
  have hne : charAt buf pos ≠ nulChar := by
    intro he
    rcases h with h | h
    · rw [he] at h; exact absurd h (by decide)
    · rw [he] at h; exact absurd h (by decide)
  have hc : (c_isalnum (charAt buf pos) || charAt buf pos = '_') = true := by
    rcases h with h | h <;> simp [h]
  unfold ident_len
  rw [drop_cons_of_charAt_ne_nul hne]
  unfold ident_run
  rw [if_pos hc]
  omega

/-- A digit run starting on a digit is nonempty. -/
theorem digit_len_pos {buf : List Char} {pos : Nat}
    (h : c_isdigit (charAt buf pos) = true) :
    1 ≤ digit_len buf pos := by
  have hne : charAt buf pos ≠ nulChar := by
    intro he
    rw [he] at h
    exact absurd h (by decide)
  unfold digit_len
  rw [drop_cons_of_charAt_ne_nul hne]
  unfold digit_run
  rw [if_pos h]
  omega

/-- The count used for the error token is at least one. -/
theorem malf_n_pos (buf : List Char) (pos : Nat) : 1 ≤ malf_n buf pos := by
  unfold malf_n
  split <;> omega

/-- `strndup` at a non-NUL character with a positive count is nonempty. -/
theorem strndup_ne_nil {buf : List Char} {pos n : Nat}
    (hc : charAt buf pos ≠ nulChar) (hn : 1 ≤ n) :
    strndup buf pos n ≠ [] := by
  cases n with
  | zero => omega
  | succ m =>
    unfold strndup
    rw [if_neg hc]
    simp

/-- The token type chosen for a punctuator is neither EOF nor ERROR. -/
theorem punct_type_of_is_punct {c : Char} (h : is_punct c = true) :
    punct_type c ≠ .TOKEN_EOF ∧ punct_type c ≠ .TOKEN_ERROR := by
  unfold is_punct at h
  simp only [Bool.or_eq_true, decide_eq_true_eq] at h
  rcases h with ((((h | h) | h) | h) | h) <;> subst h <;> exact ⟨by decide, by decide⟩

/-- `check_keyword` only ever yields keyword or identifier types. -/
theorem check_keyword_ne (lexeme : List Char) :
    check_keyword lexeme ≠ .TOKEN_EOF ∧ check_keyword lexeme ≠ .TOKEN_ERROR := by
  unfold check_keyword
  split_ifs <;> exact ⟨by decide, by decide⟩

/-- At a NUL character the scanner reports end of input without moving. -/
theorem scan_at_of_nul {buf : List Char} {pos : Nat} (h : charAt buf pos = nulChar) :
    scan_at buf pos = (⟨.TOKEN_EOF, []⟩, pos) := by
  unfold scan_at
  rw [if_pos h]

/-- At a non-NUL character the scanner strictly advances the cursor. -/
theorem scan_at_snd_lt {buf : List Char} {pos : Nat} (h : charAt buf pos ≠ nulChar) :
    pos < (scan_at buf pos).2 := by
  unfold scan_at
  rw [if_neg h]
  split_ifs with h2 h3 h4
  · exact Nat.lt_succ_self pos
  · show pos < pos + ident_len buf pos
    simp only [Bool.and_eq_true, Bool.or_eq_true, decide_eq_true_eq] at h3
    have := ident_len_pos (Or.imp_left c_isalnum_of_alpha h3.1)
    omega
  · show pos < pos + digit_len buf pos
    simp only [Bool.and_eq_true] at h4
    have := digit_len_pos h4.1
    omega
  · show pos < pos + malf_n buf pos
    have := malf_n_pos buf pos
    omega

/-- At a non-NUL character the scanner never reports end of input. -/
theorem scan_at_type_ne_eof {buf : List Char} {pos : Nat} (h : charAt buf pos ≠ nulChar) :
    (scan_at buf pos).1.type ≠ .TOKEN_EOF := by
  unfold scan_at
  rw [if_neg h]
  split_ifs with h2 h3 h4
  · exact (punct_type_of_is_punct h2).1
  · exact (check_keyword_ne _).1
  · simp
  · simp

/-- Inversion: an EOF result comes from the NUL branch and does not move. -/
theorem scan_at_eof_inv {buf : List Char} {pos : Nat}
    (h : (scan_at buf pos).1.type = .TOKEN_EOF) :
    charAt buf pos = nulChar ∧ scan_at buf pos = (⟨.TOKEN_EOF, []⟩, pos) := by
  by_cases hn : charAt buf pos = nulChar
  · exact ⟨hn, scan_at_of_nul hn⟩
  · exact absurd h (scan_at_type_ne_eof hn)

/-- An error token produced by the scanner body carries nonempty text. -/
theorem scan_at_error_lexeme {buf : List Char} {pos : Nat}
    (h : (scan_at buf pos).1.type = .TOKEN_ERROR) :
    (scan_at buf pos).1.lexeme ≠ [] := by
  by_cases hn : charAt buf pos = nulChar
  · rw [scan_at_of_nul hn] at h
    simp at h
  · unfold scan_at at h ⊢
    rw [if_neg hn] at h ⊢
    split_ifs at h ⊢ with h2 h3 h4
    · exact absurd h (punct_type_of_is_punct h2).2
    · exact absurd h (check_keyword_ne _).2
    · exact strndup_ne_nil hn (malf_n_pos buf pos)

/-- Inversion for `get_next_token` returning EOF: the cursor rests on the
terminating NUL and equals the whitespace-skipped input cursor. -/
theorem get_next_token_eof_inv {buf : List Char} {pos : Nat}
    (h : (get_next_token buf pos).1.type = .TOKEN_EOF) :
    charAt buf (get_next_token buf pos).2 = nulChar ∧
    get_next_token buf pos = (⟨.TOKEN_EOF, []⟩, skip_whitespace buf pos) := by
  unfold get_next_token at h ⊢
  obtain ⟨hc, heq⟩ := scan_at_eof_inv h
  rw [heq]
  exact ⟨hc, rfl⟩

/-- A non-EOF result strictly advances the cursor, from inside the buffer. -/
theorem get_next_token_progress {buf : List Char} {pos : Nat}
    (h : (get_next_token buf pos).1.type ≠ .TOKEN_EOF) :
    pos < (get_next_token buf pos).2 ∧ pos < buf.length := by
  unfold get_next_token at h ⊢
  by_cases hn : charAt buf (skip_whitespace buf pos) = nulChar
  · exact absurd (by rw [scan_at_of_nul hn]) h
  · have h1 := scan_at_snd_lt hn
    have h2 := lt_length_of_charAt_ne_nul hn
    have h3 := skip_whitespace_le buf pos
    exact ⟨by omega, by omega⟩

/-- The EOF token always carries the NULL (empty) lexeme. -/
theorem get_next_token_eof_shape {buf : List Char} {pos : Nat}
    (h : (get_next_token buf pos).1.type = .TOKEN_EOF) :
    (get_next_token buf pos).1 = ⟨.TOKEN_EOF, []⟩ := by
  rw [(get_next_token_eof_inv h).2]

/-- With fuel exceeding the number of remaining buffer positions, the driver
loop always reaches end of input: the token list ends with the EOF token.
This is the termination argument for the do-while loop of main. -/
theorem tokenize_fuel_eof_suffix (buf : List Char) :
    ∀ fuel pos, buf.length - pos < fuel →
      ∃ ts, tokenize_fuel buf fuel pos = ts ++ [⟨.TOKEN_EOF, []⟩] := by
  intro fuel
  induction fuel with
  | zero => intro pos h; omega
  | succ n ih =>
    intro pos h
    by_cases he : (get_next_token buf pos).1.type = .TOKEN_EOF
    · refine ⟨[], ?_⟩
      show (if (get_next_token buf pos).1.type = .TOKEN_EOF then _ else _) = _
      rw [if_pos he, get_next_token_eof_shape he]
      rfl
    · obtain ⟨hlt, hlen⟩ := get_next_token_progress he
      obtain ⟨ts, hts⟩ := ih (get_next_token buf pos).2 (by omega)
      refine ⟨(get_next_token buf pos).1 :: ts, ?_⟩
      show (if (get_next_token buf pos).1.type = .TOKEN_EOF then _ else _) = _
      rw [if_neg he, hts]
      rfl

/-- The full scan of any finite buffer terminates at the EOF token. -/
theorem tokenize_all_eof_suffix (buf : List Char) :
    ∃ ts, tokenize_all buf = ts ++ [⟨.TOKEN_EOF, []⟩] :=
  tokenize_fuel_eof_suffix buf (buf.length + 1) 0 (by omega)

/-- The error counter of the driver loop counts exactly the `TOKEN_ERROR`
tokens of the token sequence, one each. -/
theorem drive_count_eq_filter (buf : List Char) :
    ∀ fuel pos, drive_count buf fuel pos =
      ((tokenize_fuel buf fuel pos).filter fun t => t.type = .TOKEN_ERROR).length := by
  intro fuel
  induction fuel with
  | zero => intro pos; rfl
  | succ n ih =>
    intro pos
    simp only [drive_count, tokenize_fuel]
    by_cases he : (get_next_token buf pos).1.type = .TOKEN_EOF
    · have hne : (get_next_token buf pos).1.type ≠ .TOKEN_ERROR := by
        rw [he]; simp
      rw [if_neg hne, if_pos he, if_pos he, List.filter_cons]
      simp [hne]
    · rw [if_neg he, if_neg he, List.filter_cons]
      by_cases her : (get_next_token buf pos).1.type = .TOKEN_ERROR
      · rw [if_pos her, if_pos (decide_eq_true her), List.length_cons, ih]
        omega
      · rw [if_neg her, if_neg (by simp [her] : ¬(decide
          ((get_next_token buf pos).1.type = TokenType.TOKEN_ERROR) = true)), ih]
        omega

/-- A line-comment run starting on `/` is nonempty. -/
theorem line_comment_run_pos {buf : List Char} {pos : Nat} (h : charAt buf pos = '/') :
    1 ≤ line_comment_run (buf.drop pos) := by
  have hne : charAt buf pos ≠ nulChar := by rw [h]; decide
  rw [drop_cons_of_charAt_ne_nul hne, h]
  unfold line_comment_run
  rw [if_pos (by decide)]
  omega

/-- Where the cursor lands after the block-comment branch of `skip_comments`
(lexer.c lines 101-109): skip the opener, run to the closer or the NUL, and
skip the closer only when one was found. -/
def block_comment_end (buf : List Char) (pos : Nat) : Nat :=
  if charAt buf (pos + 2 + block_body_run (buf.drop (pos + 2))) ≠ nulChar
  then pos + 2 + block_body_run (buf.drop (pos + 2)) + 2
  else pos + 2 + block_body_run (buf.drop (pos + 2))

/-- The block-comment branch consumes at least the two opener characters. -/
theorem block_comment_end_ge (buf : List Char) (pos : Nat) :
    pos + 2 ≤ block_comment_end buf pos := by
  unfold block_comment_end
  split <;> omega

/-- `skip_comments` (lexer.c lines 91-116).  This function exists in the
source but is NEVER invoked: `get_next_token` only calls `skip_whitespace`
(line 139) although the comment above that call reads "Skip whitespace and
comments".  It is embedded here because the spec's trivia-skipping step
describes it. -/
def skip_comments (buf : List Char) (pos : Nat) : Nat :=
  if h0 : charAt buf pos = nulChar then pos
  else if h1 : charAt buf pos = '/' ∧ charAt buf (pos + 1) = '/' then
    skip_comments buf (pos + line_comment_run (buf.drop pos))
  else if h2 : charAt buf pos = '/' ∧ charAt buf (pos + 1) = '*' then
    skip_comments buf (block_comment_end buf pos)
  else pos
termination_by buf.length - pos
decreasing_by
  · have hlt := lt_length_of_charAt_ne_nul h0
    have hrun := line_comment_run_pos h1.1
    omega
  · have hlt := lt_length_of_charAt_ne_nul h0
    have h2le := block_comment_end_ge buf pos
    omega

/-- A character read at a position inside the buffer is a member of it. -/
theorem charAt_mem {buf : List Char} {pos : Nat} (h : pos < buf.length) :
    charAt buf pos ∈ buf := by
  induction buf generalizing pos with
  | nil => simp at h
  | cons c cs ih =>
    cases pos with
    | zero => exact List.mem_cons_self _ _
    | succ n => exact List.mem_cons_of_mem _ (ih (by simpa using h))

/-- C1: evaluation of the scanner on the comment-only buffer of scenario E.
The claim says a trivia-only buffer such as the unterminated block comment
yields exactly one EndOfInput token and zero Malformed tokens.  The code
instead emits Malformed("/*") and Identifier("unterminated") with error
count 1, because `get_next_token` never invokes `skip_comments`. -/
theorem tokenize_comment_only_buffer :
    tokenize_all ("/* unterminated".toList) =
      [⟨.TOKEN_ERROR, "/*".toList⟩, ⟨.TOKEN_IDENTIFIER, "unterminated".toList⟩,
       ⟨.TOKEN_EOF, []⟩] ∧
    error_count ("/* unterminated".toList) = 1 :=
  ⟨by decide, by decide⟩

/-- C2: evaluation of the scanner on `12abc;`.  The claim says the result is
Malformed("12abc"), Semicolon, EndOfInput.  The code instead emits a single
Malformed token whose lexeme is the whole `12abc;` (the semicolon included)
and moves the cursor to 7, one past the terminating NUL at offset 6, because
the digit-branch residue of `len` is not reset before the malformed-run
loop; the semicolon is never tokenized. -/
theorem tokenize_digits_then_letters :
    get_next_token ("12abc;".toList) 0 = (⟨.TOKEN_ERROR, "12abc;".toList⟩, 7) ∧
    tokenize_all ("12abc;".toList) =
      [⟨.TOKEN_ERROR, "12abc;".toList⟩, ⟨.TOKEN_EOF, []⟩] :=
  ⟨by decide, by decide⟩

/-- C3 counterexample: on `foo$bar` the scanner does NOT produce the claimed
sequence Identifier("foo"), Malformed("$"), Identifier("bar"), EndOfInput. -/
theorem foo_dollar_bar_not_split :
    tokenize_all ("foo$bar".toList) ≠
      [⟨.TOKEN_IDENTIFIER, "foo".toList⟩, ⟨.TOKEN_ERROR, "$".toList⟩,
       ⟨.TOKEN_IDENTIFIER, "bar".toList⟩, ⟨.TOKEN_EOF, []⟩] := by
  decide

/-- C3 amended: on `foo$bar` the malformed run is maximal over all
non-whitespace, non-punctuator characters, letters included, so `$bar` is a
single Malformed token: the result is Identifier("foo"), Malformed("$bar"),
EndOfInput. -/
theorem foo_dollar_bar_single_malformed :
    tokenize_all ("foo$bar".toList) =
      [⟨.TOKEN_IDENTIFIER, "foo".toList⟩, ⟨.TOKEN_ERROR, "$bar".toList⟩,
       ⟨.TOKEN_EOF, []⟩] := by
  decide

/-- C4: evaluation of the scanner on scenario D, `// comment\nint x;`.  The
claim says the line comment is fully elided, giving Int, Identifier("x"),
Semicolon, EndOfInput.  The code instead emits Malformed("//") and
Identifier("comment") first (error count 1), because `get_next_token` never
invokes `skip_comments`, refuting comment-insertion invariance as well. -/
theorem tokenize_line_comment_input :
    tokenize_all ("// comment\nint x;".toList) =
      [⟨.TOKEN_ERROR, "//".toList⟩, ⟨.TOKEN_IDENTIFIER, "comment".toList⟩,
       ⟨.TOKEN_INT, "int".toList⟩, ⟨.TOKEN_IDENTIFIER, "x".toList⟩,
       ⟨.TOKEN_SEMICOLON, ";".toList⟩, ⟨.TOKEN_EOF, []⟩] ∧
    error_count ("// comment\nint x;".toList) = 1 :=
  ⟨by decide, by decide⟩

/-- C5: scenario A.  On `int main(void){return 2;}` the scan yields the kind
sequence Int, Identifier("main"), OpenParen, Void, CloseParen, OpenBrace,
Return, Constant("2"), Semicolon, CloseBrace, EndOfInput with zero Malformed
tokens. -/
theorem tokenize_minimal_program :
    tokenize_all ("int main(void)\x7breturn 2;\x7d".toList) =
      [⟨.TOKEN_INT, "int".toList⟩, ⟨.TOKEN_IDENTIFIER, "main".toList⟩,
       ⟨.TOKEN_OPEN_PAREN, "(".toList⟩, ⟨.TOKEN_VOID, "void".toList⟩,
       ⟨.TOKEN_CLOSE_PAREN, ")".toList⟩, ⟨.TOKEN_OPEN_BRACE, "\x7b".toList⟩,
       ⟨.TOKEN_RETURN, "return".toList⟩, ⟨.TOKEN_CONSTANT, "2".toList⟩,
       ⟨.TOKEN_SEMICOLON, ";".toList⟩, ⟨.TOKEN_CLOSE_BRACE, "\x7d".toList⟩,
       ⟨.TOKEN_EOF, []⟩] ∧
    error_count ("int main(void)\x7breturn 2;\x7d".toList) = 0 :=
  ⟨by decide, by decide⟩

/-- C6: on every NUL-free buffer and every cursor position inside it,
`get_next_token` returns a cursor that is at least the input cursor, with
equality only when the cursor was already at end-of-buffer, in which case
the token is EndOfInput; consequently the full scan of any finite buffer
terminates, ending at the EOF token. -/
theorem get_next_token_cursor_monotone (buf : List Char) (pos : Nat)
    (hnul : nulChar ∉ buf) (hpos : pos ≤ buf.length) :
    pos ≤ (get_next_token buf pos).2 ∧
    ((get_next_token buf pos).2 = pos →
      pos = buf.length ∧ (get_next_token buf pos).1.type = .TOKEN_EOF) ∧
    ∃ ts, tokenize_all buf = ts ++ [⟨.TOKEN_EOF, []⟩] := by
  refine ⟨?_, ?_, tokenize_all_eof_suffix buf⟩
  · unfold get_next_token
    have h1 := skip_whitespace_le buf pos
    by_cases hn : charAt buf (skip_whitespace buf pos) = nulChar
    · rw [scan_at_of_nul hn]
      exact h1
    · have h2 := scan_at_snd_lt hn
      omega
  · intro heq
    unfold get_next_token at heq
    have h1 := skip_whitespace_le buf pos
    by_cases hn : charAt buf (skip_whitespace buf pos) = nulChar
    · have heq2 : skip_whitespace buf pos = pos := by
        rw [scan_at_of_nul hn] at heq
        exact heq
      rw [heq2] at hn
      have hlen : pos = buf.length := by
        rcases Nat.lt_or_ge pos buf.length with hlt | hge
        · exact absurd (hn ▸ charAt_mem hlt) hnul
        · omega
      refine ⟨hlen, ?_⟩
      unfold get_next_token
      rw [heq2, scan_at_of_nul hn]
    · have h2 := scan_at_snd_lt hn
      exfalso
      omega

/-- Witness for C6 at the concrete buffer `ab` and cursor 0. -/
theorem get_next_token_cursor_monotone_witness :
    0 ≤ (get_next_token ("ab".toList) 0).2 ∧
    ((get_next_token ("ab".toList) 0).2 = 0 →
      0 = ("ab".toList).length ∧ (get_next_token ("ab".toList) 0).1.type = .TOKEN_EOF) ∧
    ∃ ts, tokenize_all ("ab".toList) = ts ++ [⟨.TOKEN_EOF, []⟩] :=
  get_next_token_cursor_monotone ("ab".toList) 0 (by decide) (by decide)

/-- C7: every Malformed (TOKEN_ERROR) token produced by `get_next_token`
carries non-empty text, for every buffer and cursor position. -/
theorem malformed_token_nonempty (buf : List Char) (pos : Nat)
    (h : (get_next_token buf pos).1.type = .TOKEN_ERROR) :
    (get_next_token buf pos).1.lexeme ≠ [] := by
  unfold get_next_token at h ⊢
  exact scan_at_error_lexeme h

/-- Witness for C7 at the concrete buffer `$` and cursor 0. -/
theorem malformed_token_nonempty_witness :
    (get_next_token ("$".toList) 0).1.lexeme ≠ [] :=
  malformed_token_nonempty ("$".toList) 0 (by decide)

/-- C8: EndOfInput is terminal: if `get_next_token` returns EOF with some
resulting cursor, the call at that cursor returns EOF again without moving,
and hence every iterate of the cursor map stays there: no non-EOF token can
ever follow. -/
theorem eof_is_terminal (buf : List Char) (pos pos2 : Nat) (tok : Token)
    (h : get_next_token buf pos = (tok, pos2)) (he : tok.type = .TOKEN_EOF) :
    get_next_token buf pos2 = (⟨.TOKEN_EOF, []⟩, pos2) ∧
    ∀ k : Nat, (fun q => (get_next_token buf q).2)^[k] pos2 = pos2 := by
  have he2 : (get_next_token buf pos).1.type = .TOKEN_EOF := by
    rw [h]
    exact he
  obtain ⟨hc, _⟩ := get_next_token_eof_inv he2
  rw [h] at hc
  have hc2 : charAt buf pos2 = nulChar := hc
  have hfix : get_next_token buf pos2 = (⟨.TOKEN_EOF, []⟩, pos2) := by
    unfold get_next_token
    rw [skip_whitespace_of_nul hc2, scan_at_of_nul hc2]
  refine ⟨hfix, fun k => ?_⟩
  apply Function.iterate_fixed
  show (get_next_token buf pos2).2 = pos2
  rw [hfix]

/-- Witness for C8 at the empty buffer. -/
theorem eof_is_terminal_witness :
    get_next_token ([] : List Char) 0 = (⟨.TOKEN_EOF, []⟩, 0) ∧
    ∀ k : Nat, (fun q => (get_next_token ([] : List Char) q).2)^[k] 0 = 0 :=
  eof_is_terminal [] 0 0 ⟨.TOKEN_EOF, []⟩ (by decide) (by decide)

/-- C9: for the driver loop of main after a successful load, the error
counter equals the number of Malformed tokens of the scan, each counted
exactly once, and the exit status is 0 exactly when the scan produced no
Malformed token (else 1). -/
theorem driver_status_iff_no_malformed (buf : List Char) :
    error_count buf =
      ((tokenize_all buf).filter fun t => t.type = .TOKEN_ERROR).length ∧
    (lexer_main_status buf = 0 ↔ ∀ t ∈ tokenize_all buf, t.type ≠ .TOKEN_ERROR) := by
  have h1 : error_count buf =
      ((tokenize_all buf).filter fun t => t.type = .TOKEN_ERROR).length :=
    drive_count_eq_filter buf (buf.length + 1) 0
  refine ⟨h1, ?_⟩
  unfold lexer_main_status
  rw [h1]
  have key : (((tokenize_all buf).filter fun t => t.type = .TOKEN_ERROR).length = 0) ↔
      ∀ t ∈ tokenize_all buf, t.type ≠ .TOKEN_ERROR := by
    rw [List.length_eq_zero, List.filter_eq_nil_iff]
    simp
  constructor
  · intro h0
    split_ifs at h0 with hp
    exact key.mp (by omega)
  · intro hall
    have h2 := key.mpr hall
    rw [if_neg (by omega)]

/-- C10: evaluation of the scanner on the failing input `12abc;`.  The claim
says the returned cursor never passes the terminating NUL; here the buffer
ends at offset 6 but the cursor returned from position 0 is 7, so the next
call would read past the end of the allocation. -/
theorem cursor_overruns_buffer :
    ("12abc;".toList).length = 6 ∧ (get_next_token ("12abc;".toList) 0).2 = 7 :=
  ⟨by decide, by decide⟩
